import Mathlib

/-!
Verification development for the syris image-processing core:
the tile geometry engine (`syris/imageprocessing.py`) and the camera
noise-synthesis pipeline (`syris/devices/cameras.py`).

The source is Python 2 code: `/` on integers is floor division, `%` by
zero and `1.0 / None` raise exceptions, and `None <= number` evaluates
to `True`.  Machine integers are modelled as `ℕ`/`ℤ` with explicit floor
division, Python floats as exact rationals (`ℚ`), numpy arrays as
functions from coordinates to values together with explicit dimensions,
and fallible operations as `Except`.
-/

namespace Syris

/-! ### Tiler (syris/imageprocessing.py) -/

/-- Errors that the tiler code can raise.  The source raises plain
`ValueError` (for the tiling check) and numpy raises a broadcast
`ValueError` on mismatched slice assignment; `%` by a zero tile count
would raise `ZeroDivisionError`. -/
inductive TilerErr where
  | valueError : TilerErr
  | broadcastError : TilerErr
  | zeroDivisionError : TilerErr
  deriving DecidableEq, Repr

/-- `_check_tiling(shape, tiles_count)`: raise `ValueError` unless both
axes of `shape` are multiples of the corresponding `tiles_count` axis.
A zero tile count makes Python's `%` raise `ZeroDivisionError`. -/
def check_tiling (shape tiles_count : ℕ × ℕ) : Except TilerErr Unit :=
  if tiles_count.1 = 0 ∨ tiles_count.2 = 0 then .error .zeroDivisionError
  else if shape.1 % tiles_count.1 ≠ 0 ∨ shape.2 % tiles_count.2 ≠ 0 then .error .valueError
  else .ok ()

/-- State stored by `Tiler.__init__`: tile counts, the outlier
coefficient (`2 if outlier else 1`), the supersampling factor, the
supersampled shape `self.shape`, and the contents of the accumulator
`self._overall` (a `base_shape`-sized buffer, represented as a function
from (row, column) to value; the source allocates it with `np.empty`,
i.e. with arbitrary initial contents). -/
structure Tiler where
  tiles_count : ℕ × ℕ
  outlier_coeff : ℕ
  supersampling : ℕ
  shape : ℕ × ℕ
  overall : ℕ → ℕ → ℚ

/-- The object `Tiler.__init__` builds once `_check_tiling` has passed.
`empty` stands for the arbitrary initial contents of `np.empty`. -/
def mk_tiler (shape tiles_count : ℕ × ℕ) (outlier : Bool) (supersampling : ℕ)
    (empty : ℕ → ℕ → ℚ) : Tiler :=
  { tiles_count := tiles_count
    outlier_coeff := if outlier then 2 else 1
    supersampling := supersampling
    shape := (shape.1 * supersampling, shape.2 * supersampling)
    overall := empty }

/-- `Tiler.__init__`: validate, then construct. -/
def tiler_init (shape tiles_count : ℕ × ℕ) (outlier : Bool) (supersampling : ℕ)
    (empty : ℕ → ℕ → ℚ) : Except TilerErr Tiler :=
  match check_tiling shape tiles_count with
  | .error e => .error e
  | .ok _ => .ok (mk_tiler shape tiles_count outlier supersampling empty)

/-- The `outlier` property: `bool(self._outlier_coeff - 1)`. -/
def Tiler.outlier (t : Tiler) : Bool :=
  decide (t.outlier_coeff - 1 ≠ 0)

/-- The `tile_shape` property:
`(outlier_coeff * shape[0] / tiles_count[0], outlier_coeff * shape[1] / tiles_count[1])`
with Python 2 integer (floor) division. -/
def Tiler.tile_shape (t : Tiler) : ℕ × ℕ :=
  (t.outlier_coeff * t.shape.1 / t.tiles_count.1,
   t.outlier_coeff * t.shape.2 / t.tiles_count.2)

/-- The dimensions of the accumulator `self._overall`:
`(shape[0] / supersampling, shape[1] / supersampling)`. -/
def Tiler.overall_shape (t : Tiler) : ℕ × ℕ :=
  (t.shape.1 / t.supersampling, t.shape.2 / t.supersampling)

/-- Per-axis interior (non-supersampled, outlier-free) tile extent, as
computed inside `insert`: `dim / supersampling / outlier_coeff`. -/
def Tiler.interior_shape (t : Tiler) : ℕ × ℕ :=
  (t.tile_shape.1 / t.supersampling / t.outlier_coeff,
   t.tile_shape.2 / t.supersampling / t.outlier_coeff)

/-- A tile passed to `insert`: a 2-D array with its own dimensions. -/
structure Tile where
  h : ℕ
  w : ℕ
  data : ℕ → ℕ → ℚ

/-- The effect of the numpy slice assignment
`overall[lo0:hi0, lo1:hi1] = tile` on the accumulator contents, with
numpy broadcasting of a size-1 tile dimension across the region. -/
def slice_write (overall : ℕ → ℕ → ℚ) (tile : Tile) (lo0 hi0 lo1 hi1 : ℕ) :
    ℕ → ℕ → ℚ :=
  fun y x =>
    if lo0 ≤ y ∧ y < hi0 ∧ lo1 ≤ x ∧ x < hi1 then
      tile.data (if tile.h = 1 then 0 else y - lo0) (if tile.w = 1 then 0 else x - lo1)
    else overall y x

/-- Python resolution of a slice bound `i` against an axis of length
`len` (step 1): a negative bound first has `len` added (wrap-around
from the end), then the result is clamped into `[0, len]`. -/
def py_slice_index (i : ℤ) (len : ℕ) : ℕ :=
  (min (max (if i < 0 then i + len else i) 0) (len : ℤ)).toNat

/-- `Tiler.insert(tile, indices)`: numpy slice assignment
`self._overall[i0*ts0 : ts0*(i0+1), i1*ts1 : ts1*(i1+1)] = tile`.
The grid indices are Python ints, so they may be negative; each slice
bound is resolved with Python semantics (`py_slice_index`: negative
bounds wrap around from the end of the axis, then everything is clamped
to the axis).  The assignment succeeds iff the tile's shape broadcasts
to the resolved region's shape (each tile dimension equals the region
dimension or is 1), otherwise numpy raises a broadcast `ValueError`.
The source performs no validation of its own. -/
def Tiler.insert (t : Tiler) (tile : Tile) (indices : ℤ × ℤ) : Except TilerErr Tiler :=
  let ts0 := t.interior_shape.1
  let ts1 := t.interior_shape.2
  let lo0 := py_slice_index (indices.1 * (ts0 : ℤ)) t.overall_shape.1
  let hi0 := py_slice_index ((ts0 : ℤ) * (indices.1 + 1)) t.overall_shape.1
  let lo1 := py_slice_index (indices.2 * (ts1 : ℤ)) t.overall_shape.2
  let hi1 := py_slice_index ((ts1 : ℤ) * (indices.2 + 1)) t.overall_shape.2
  if (tile.h = hi0 - lo0 ∨ tile.h = 1) ∧ (tile.w = hi1 - lo1 ∨ tile.w = 1) then
    .ok { t with overall := slice_write t.overall tile lo0 hi0 lo1 hi1 }
  else .error .broadcastError

/-- Unshifted per-axis tile origins from `tile_indices`:
`i * tile_shape[axis] / outlier_coeff` (floor division). -/
def Tiler.y_ind (t : Tiler) (i : ℕ) : ℕ :=
  i * t.tile_shape.1 / t.outlier_coeff

/-- Unshifted x-axis tile origin, see `Tiler.y_ind`. -/
def Tiler.x_ind (t : Tiler) (i : ℕ) : ℕ :=
  i * t.tile_shape.2 / t.outlier_coeff

/-- y-axis origin after the outlier shift `y_ind - tile_shape[0] / 4`
(the shift can make origins negative, hence `ℤ`). -/
def Tiler.y_ind_shifted (t : Tiler) (i : ℕ) : ℤ :=
  (t.y_ind i : ℤ) - (if t.outlier then ((t.tile_shape.1 / 4 : ℕ) : ℤ) else 0)

/-- x-axis origin after the outlier shift, see `Tiler.y_ind_shifted`. -/
def Tiler.x_ind_shifted (t : Tiler) (i : ℕ) : ℤ :=
  (t.x_ind i : ℤ) - (if t.outlier then ((t.tile_shape.2 / 4 : ℕ) : ℤ) else 0)

/-- The `tile_indices` property: `itertools.product(y_ind, x_ind)`
flattened row-major (y varies slower); the numpy `reshape` to
`tiles_count + (2,)` makes grid cell `(r, c)` the flat element
`r * tiles_count[1] + c`. -/
def Tiler.tile_indices (t : Tiler) : List (ℤ × ℤ) :=
  (List.range t.tiles_count.1).flatMap fun i =>
    (List.range t.tiles_count.2).map fun j => (t.y_ind_shifted i, t.x_ind_shifted j)

/-! ### Camera (syris/devices/cameras.py) -/

/-- Errors the camera code can raise.  `fpsError` is the source's
`FPSError(fps, exp_time)`, carrying the two offending values exactly as
passed (either may be `None`).  `typeError` models Python 2's
`TypeError` from `1.0 / None`, `zeroDivisionError` the one from
`1.0 / 0`, and `attributeError` a read of the never-assigned
`self._dark_image`. -/
inductive CamErr where
  | fpsError (fps exp_time : Option ℚ) : CamErr
  | typeError : CamErr
  | zeroDivisionError : CamErr
  | attributeError : CamErr
  deriving DecidableEq, Repr

/-- `is_fps_feasible(fps, exp_time)`: `exp_time <= 1.0 / fps`.  Python 2
semantics: `1.0 / None` raises `TypeError`, `1.0 / 0` raises
`ZeroDivisionError`, and `None <= number` evaluates to `True`. -/
def is_fps_feasible (fps exp_time : Option ℚ) : Except CamErr Bool :=
  match fps with
  | none => .error .typeError
  | some f =>
    if f = 0 then .error .zeroDivisionError
    else
      match exp_time with
      | none => .ok true
      | some e => .ok (decide (e ≤ 1 / f))

/-- `_fps_check_raise(fps, exp_time)`: raise `FPSError(fps, exp_time)`
when the pair is not feasible. -/
def fps_check_raise (fps exp_time : Option ℚ) : Except CamErr Unit :=
  match is_fps_feasible fps exp_time with
  | .error er => .error er
  | .ok true => .ok ()
  | .ok false => .error (.fpsError fps exp_time)

/-- A 2-D numpy buffer: dimensions plus contents. -/
structure Img where
  h : ℕ
  w : ℕ
  data : ℕ → ℕ → ℚ

/-- `np.ones(shape, dtype) * dark_current`: a `shape`-sized buffer every
element of which is `1 * dark_current`. -/
def np_ones_times (sh : ℕ × ℕ) (dc : ℚ) : Img :=
  ⟨sh.1, sh.2, fun _ _ => 1 * dc⟩

/-- Camera state.  Python floats are modelled as `ℚ`.  `dark_image` is
the `self._dark_image` attribute (`none` = never assigned), which is
what `get_image` reads.  `dark_image_attr` records whether the distinct
attribute `self.dark_image` exists — the `shape` setter's `None` branch
assigns `self.dark_image = None` (note the missing underscore) and
leaves `self._dark_image` untouched.  `pixel_size` and
`quantum_efficiencies` are stored by `__init__` but never used by the
modelled operations and are omitted. -/
structure Camera where
  gain : ℚ
  dark_current : ℚ
  amplifier_sigma : ℚ
  bpp : ℕ
  shape : Option (ℕ × ℕ)
  exp_time : Option ℚ
  fps : Option ℚ
  dark_image : Option Img
  dark_image_attr : Bool

/-- The `shape` setter: store the shape; if it is not `None`, recompute
`self._dark_image = np.ones(shape, dtype) * dark_current`; otherwise
execute `self.dark_image = None`, which creates a different attribute
and leaves `self._dark_image` with its previous value. -/
def Camera.set_shape (c : Camera) (s : Option (ℕ × ℕ)) : Camera :=
  match s with
  | some sh => { c with shape := some sh,
                        dark_image := some (np_ones_times sh c.dark_current) }
  | none => { c with shape := none, dark_image_attr := true }

/-- The `exp_time` setter: `_fps_check_raise(self.fps, exp_time)`, then
commit (`.simplified` is a unit conversion, modelled as identity). -/
def Camera.set_exp_time (c : Camera) (e : ℚ) : Except CamErr Camera :=
  match fps_check_raise c.fps (some e) with
  | .error er => .error er
  | .ok _ => .ok { c with exp_time := some e }

/-- The `fps` setter: `_fps_check_raise(fps, self.exp_time)`, then
commit. -/
def Camera.set_fps (c : Camera) (f : ℚ) : Except CamErr Camera :=
  match fps_check_raise (some f) c.exp_time with
  | .error er => .error er
  | .ok _ => .ok { c with fps := some f }

/-- `Camera.__init__` (the parts relevant here): run the `shape` setter,
then derive the missing member of the `(fps, exp_time)` pair
(`exp_time = 1.0 / fps` or `fps = 1.0 / exp_time`), then validate with
`_fps_check_raise` whenever `fps` ended up set, then store both. -/
def camera_init (gain dark_current amplifier_sigma : ℚ) (bpp : ℕ)
    (shape : Option (ℕ × ℕ)) (exp_time fps : Option ℚ) : Except CamErr Camera :=
  let c0 : Camera :=
    { gain := gain, dark_current := dark_current,
      amplifier_sigma := amplifier_sigma, bpp := bpp, shape := none,
      exp_time := none, fps := none, dark_image := none, dark_image_attr := false }
  let c1 := c0.set_shape shape
  match fps, exp_time with
  | none, none => .ok { c1 with fps := none, exp_time := none }
  | some f, none =>
    if f = 0 then .error .zeroDivisionError
    else
      match fps_check_raise (some f) (some (1 / f)) with
      | .error er => .error er
      | .ok _ => .ok { c1 with fps := some f, exp_time := some (1 / f) }
  | some f, some e =>
    match fps_check_raise (some f) (some e) with
    | .error er => .error er
    | .ok _ => .ok { c1 with fps := some f, exp_time := some e }
  | none, some e =>
    if e = 0 then .error .zeroDivisionError
    else
      match fps_check_raise (some (1 / e)) (some e) with
      | .error er => .error er
      | .ok _ => .ok { c1 with fps := some (1 / e), exp_time := some e }

/-- The `max_grey_value` property: `2 ** bpp - 1`. -/
def Camera.max_grey_value (c : Camera) : ℕ :=
  2 ^ c.bpp - 1

/-- C-style float-to-integer conversion truncates toward zero. -/
def trunc_toward_zero (q : ℚ) : ℤ :=
  if 0 ≤ q then ⌊q⌋ else ⌈q⌉

/-- `res.astype(np.ushort)`: the dtype stored by `__init__` is the fixed
16-bit `np.ushort` regardless of `bits_per_pixel`; the conversion
truncates toward zero and wraps modulo `2^16` (observed numpy/C
behaviour for in-64-bit-range values). -/
def cast_ushort (q : ℚ) : ℕ :=
  ((trunc_toward_zero q) % 65536).toNat

/-- Which values a Poisson draw with the given mean can take: for mean
zero only zero, for positive mean every natural number (negative means
are invalid inputs; no draw is ever negative). -/
def poisson_support (mean : ℚ) (k : ℕ) : Prop :=
  mean = 0 → k = 0

/-- `Camera.get_image(photons)` with the randomness made explicit:
`poisson y x` is the realized Poisson draw at pixel `(y, x)` (whose mean
is `photons + self._dark_image`, related to the draw through
`poisson_support` in the theorems), and the normal draw centred at it
with standard deviation `amplifier_sigma` is written as
`poisson + amplifier_sigma * z` with `z` the realized standard-normal
deviate.  The result is `gain * normal_draw`, clipped from above at
`max_grey_value`, then cast with `astype(np.ushort)`.  Reading
`self._dark_image` fails when it was never assigned. -/
def Camera.get_image (c : Camera) (poisson : ℕ → ℕ → ℕ) (z : ℕ → ℕ → ℚ) :
    Except CamErr (ℕ → ℕ → ℕ) :=
  match c.dark_image with
  | none => .error .attributeError
  | some _ =>
    .ok fun y x =>
      let res := c.gain * ((poisson y x : ℚ) + c.amplifier_sigma * z y x)
      let clipped := if res > (c.max_grey_value : ℚ) then (c.max_grey_value : ℚ) else res
      cast_ushort clipped

/-! ### Basic arithmetic facts about the tiler -/

theorem outlier_coeff_mk (shape tiles_count : ℕ × ℕ) (outlier : Bool) (ss : ℕ)
    (empty : ℕ → ℕ → ℚ) :
    (mk_tiler shape tiles_count outlier ss empty).outlier_coeff = if outlier then 2 else 1 := rfl

theorem outlier_coeff_pos (shape tiles_count : ℕ × ℕ) (outlier : Bool) (ss : ℕ)
    (empty : ℕ → ℕ → ℚ) :
    0 < (mk_tiler shape tiles_count outlier ss empty).outlier_coeff := by
  by_cases h : outlier <;> simp [mk_tiler, h]

/-- C2: for configurations with exact divisibility, the supersampled
tile shape times the tile count recovers `outlier_coeff * base_shape *
supersampling` exactly on both axes. -/
theorem tile_shape_times_count (shape tiles_count : ℕ × ℕ) (outlier : Bool) (ss : ℕ)
    (empty : ℕ → ℕ → ℚ)
    (h1 : 0 < tiles_count.1) (h2 : 0 < tiles_count.2)
    (hd1 : tiles_count.1 ∣ shape.1) (hd2 : tiles_count.2 ∣ shape.2) :
    (mk_tiler shape tiles_count outlier ss empty).tile_shape.1 * tiles_count.1 =
      (if outlier then 2 else 1) * shape.1 * ss ∧
    (mk_tiler shape tiles_count outlier ss empty).tile_shape.2 * tiles_count.2 =
      (if outlier then 2 else 1) * shape.2 * ss := by
  obtain ⟨k1, hk1⟩ := hd1
  obtain ⟨k2, hk2⟩ := hd2
  constructor
  · show (if outlier then 2 else 1) * (shape.1 * ss) / tiles_count.1 * tiles_count.1 =
      (if outlier then 2 else 1) * shape.1 * ss
    rw [hk1]
    rw [show (if outlier then 2 else 1) * (tiles_count.1 * k1 * ss) =
      tiles_count.1 * ((if outlier then 2 else 1) * k1 * ss) by ring]
    rw [Nat.mul_div_cancel_left _ h1]
    ring
  · show (if outlier then 2 else 1) * (shape.2 * ss) / tiles_count.2 * tiles_count.2 =
      (if outlier then 2 else 1) * shape.2 * ss
    rw [hk2]
    rw [show (if outlier then 2 else 1) * (tiles_count.2 * k2 * ss) =
      tiles_count.2 * ((if outlier then 2 else 1) * k2 * ss) by ring]
    rw [Nat.mul_div_cancel_left _ h2]
    ring

/-- Witness for `tile_shape_times_count` at base shape (64, 48),
tile counts (2, 3), supersampling 2, outlier true. -/
theorem tile_shape_times_count_witness :
    0 < 2 ∧ 0 < 3 ∧ 2 ∣ 64 ∧ 3 ∣ 48 ∧
    ((mk_tiler (64, 48) (2, 3) true 2 fun _ _ => 0).tile_shape.1 * 2 =
      (if true then 2 else 1) * 64 * 2 ∧
     (mk_tiler (64, 48) (2, 3) true 2 fun _ _ => 0).tile_shape.2 * 3 =
      (if true then 2 else 1) * 48 * 2) :=
  ⟨by decide, by decide, by decide, by decide,
   tile_shape_times_count (64, 48) (2, 3) true 2 (fun _ _ => 0)
     (by decide) (by decide) (by decide) (by decide)⟩

theorem outlier_mk (shape tiles_count : ℕ × ℕ) (outlier : Bool) (ss : ℕ)
    (empty : ℕ → ℕ → ℚ) :
    (mk_tiler shape tiles_count outlier ss empty).outlier = outlier := by
  cases outlier <;> rfl

theorem tile_shape_mk_1 (shape tiles_count : ℕ × ℕ) (outlier : Bool) (ss : ℕ)
    (empty : ℕ → ℕ → ℚ) (h1 : 0 < tiles_count.1) (hd1 : tiles_count.1 ∣ shape.1) :
    (mk_tiler shape tiles_count outlier ss empty).tile_shape.1 =
      (if outlier then 2 else 1) * (shape.1 / tiles_count.1 * ss) := by
  obtain ⟨k, hk⟩ := hd1
  have hk1 : shape.1 / tiles_count.1 = k := by
    rw [hk, Nat.mul_div_cancel_left _ h1]
  show (if outlier then 2 else 1) * (shape.1 * ss) / tiles_count.1 = _
  rw [hk1, hk]
  rw [show (if outlier then 2 else 1) * (tiles_count.1 * k * ss) =
    tiles_count.1 * ((if outlier then 2 else 1) * (k * ss)) by ring]
  rw [Nat.mul_div_cancel_left _ h1]

theorem tile_shape_mk_2 (shape tiles_count : ℕ × ℕ) (outlier : Bool) (ss : ℕ)
    (empty : ℕ → ℕ → ℚ) (h2 : 0 < tiles_count.2) (hd2 : tiles_count.2 ∣ shape.2) :
    (mk_tiler shape tiles_count outlier ss empty).tile_shape.2 =
      (if outlier then 2 else 1) * (shape.2 / tiles_count.2 * ss) := by
  obtain ⟨k, hk⟩ := hd2
  have hk2 : shape.2 / tiles_count.2 = k := by
    rw [hk, Nat.mul_div_cancel_left _ h2]
  show (if outlier then 2 else 1) * (shape.2 * ss) / tiles_count.2 = _
  rw [hk2, hk]
  rw [show (if outlier then 2 else 1) * (tiles_count.2 * k * ss) =
    tiles_count.2 * ((if outlier then 2 else 1) * (k * ss)) by ring]
  rw [Nat.mul_div_cancel_left _ h2]

theorem oc_pos (outlier : Bool) : 0 < if outlier then 2 else 1 := by
  cases outlier <;> simp

theorem interior_shape_mk_1 (shape tiles_count : ℕ × ℕ) (outlier : Bool) (ss : ℕ)
    (empty : ℕ → ℕ → ℚ) (hss : 0 < ss) (h1 : 0 < tiles_count.1)
    (hd1 : tiles_count.1 ∣ shape.1) :
    (mk_tiler shape tiles_count outlier ss empty).interior_shape.1 =
      shape.1 / tiles_count.1 := by
  show (mk_tiler shape tiles_count outlier ss empty).tile_shape.1 / ss /
      (if outlier then 2 else 1) = _
  rw [tile_shape_mk_1 shape tiles_count outlier ss empty h1 hd1]
  rw [show (if outlier then 2 else 1) * (shape.1 / tiles_count.1 * ss) =
    (if outlier then 2 else 1) * (shape.1 / tiles_count.1) * ss by ring]
  rw [Nat.mul_div_cancel _ hss, Nat.mul_div_cancel_left _ (oc_pos outlier)]

theorem interior_shape_mk_2 (shape tiles_count : ℕ × ℕ) (outlier : Bool) (ss : ℕ)
    (empty : ℕ → ℕ → ℚ) (hss : 0 < ss) (h2 : 0 < tiles_count.2)
    (hd2 : tiles_count.2 ∣ shape.2) :
    (mk_tiler shape tiles_count outlier ss empty).interior_shape.2 =
      shape.2 / tiles_count.2 := by
  show (mk_tiler shape tiles_count outlier ss empty).tile_shape.2 / ss /
      (if outlier then 2 else 1) = _
  rw [tile_shape_mk_2 shape tiles_count outlier ss empty h2 hd2]
  rw [show (if outlier then 2 else 1) * (shape.2 / tiles_count.2 * ss) =
    (if outlier then 2 else 1) * (shape.2 / tiles_count.2) * ss by ring]
  rw [Nat.mul_div_cancel _ hss, Nat.mul_div_cancel_left _ (oc_pos outlier)]

theorem overall_shape_mk (shape tiles_count : ℕ × ℕ) (outlier : Bool) (ss : ℕ)
    (empty : ℕ → ℕ → ℚ) (hss : 0 < ss) :
    (mk_tiler shape tiles_count outlier ss empty).overall_shape = shape := by
  show ((shape.1 * ss) / ss, (shape.2 * ss) / ss) = shape
  rw [Nat.mul_div_cancel _ hss, Nat.mul_div_cancel _ hss]

theorem y_ind_mk (shape tiles_count : ℕ × ℕ) (outlier : Bool) (ss : ℕ)
    (empty : ℕ → ℕ → ℚ) (h1 : 0 < tiles_count.1) (hd1 : tiles_count.1 ∣ shape.1)
    (i : ℕ) :
    (mk_tiler shape tiles_count outlier ss empty).y_ind i =
      i * (shape.1 / tiles_count.1 * ss) := by
  show i * (mk_tiler shape tiles_count outlier ss empty).tile_shape.1 /
      (if outlier then 2 else 1) = _
  rw [tile_shape_mk_1 shape tiles_count outlier ss empty h1 hd1]
  rw [show i * ((if outlier then 2 else 1) * (shape.1 / tiles_count.1 * ss)) =
    (if outlier then 2 else 1) * (i * (shape.1 / tiles_count.1 * ss)) by ring]
  rw [Nat.mul_div_cancel_left _ (oc_pos outlier)]

theorem x_ind_mk (shape tiles_count : ℕ × ℕ) (outlier : Bool) (ss : ℕ)
    (empty : ℕ → ℕ → ℚ) (h2 : 0 < tiles_count.2) (hd2 : tiles_count.2 ∣ shape.2)
    (j : ℕ) :
    (mk_tiler shape tiles_count outlier ss empty).x_ind j =
      j * (shape.2 / tiles_count.2 * ss) := by
  show j * (mk_tiler shape tiles_count outlier ss empty).tile_shape.2 /
      (if outlier then 2 else 1) = _
  rw [tile_shape_mk_2 shape tiles_count outlier ss empty h2 hd2]
  rw [show j * ((if outlier then 2 else 1) * (shape.2 / tiles_count.2 * ss)) =
    (if outlier then 2 else 1) * (j * (shape.2 / tiles_count.2 * ss)) by ring]
  rw [Nat.mul_div_cancel_left _ (oc_pos outlier)]

/-! ### C3: outlier origins and interior alignment -/

/-- C3: with overlap (`outlier=True`), each per-axis origin is the
corresponding non-overlap origin shifted by exactly `-tile_shape/4`
(`/` being the source's integer division); the unshifted origins agree
with the `outlier=False` tiler's origins; adding the `tile_shape/4`
margin back to the shifted origin lands exactly on the non-overlap
origin, and the interior extent `tile_shape / outlier_coeff` equals the
non-overlap tiler's tile extent — so the central interior region of the
padded tile coincides exactly with the non-overlap tile's region. -/
theorem outlier_origin_alignment (shape tiles_count : ℕ × ℕ) (ss : ℕ)
    (empty : ℕ → ℕ → ℚ) (hss : 0 < ss) (h1 : 0 < tiles_count.1)
    (h2 : 0 < tiles_count.2) (hd1 : tiles_count.1 ∣ shape.1)
    (hd2 : tiles_count.2 ∣ shape.2) (i j : ℕ) :
    ((mk_tiler shape tiles_count true ss empty).y_ind_shifted i =
      ((mk_tiler shape tiles_count true ss empty).y_ind i : ℤ) -
        (((mk_tiler shape tiles_count true ss empty).tile_shape.1 / 4 : ℕ) : ℤ) ∧
     (mk_tiler shape tiles_count true ss empty).x_ind_shifted j =
      ((mk_tiler shape tiles_count true ss empty).x_ind j : ℤ) -
        (((mk_tiler shape tiles_count true ss empty).tile_shape.2 / 4 : ℕ) : ℤ)) ∧
    ((mk_tiler shape tiles_count true ss empty).y_ind i =
      (mk_tiler shape tiles_count false ss empty).y_ind i ∧
     (mk_tiler shape tiles_count true ss empty).x_ind j =
      (mk_tiler shape tiles_count false ss empty).x_ind j) ∧
    ((mk_tiler shape tiles_count true ss empty).y_ind_shifted i +
        (((mk_tiler shape tiles_count true ss empty).tile_shape.1 / 4 : ℕ) : ℤ) =
      (mk_tiler shape tiles_count false ss empty).y_ind_shifted i ∧
     (mk_tiler shape tiles_count true ss empty).x_ind_shifted j +
        (((mk_tiler shape tiles_count true ss empty).tile_shape.2 / 4 : ℕ) : ℤ) =
      (mk_tiler shape tiles_count false ss empty).x_ind_shifted j) ∧
    ((mk_tiler shape tiles_count true ss empty).tile_shape.1 /
        (mk_tiler shape tiles_count true ss empty).outlier_coeff =
      (mk_tiler shape tiles_count false ss empty).tile_shape.1 ∧
     (mk_tiler shape tiles_count true ss empty).tile_shape.2 /
        (mk_tiler shape tiles_count true ss empty).outlier_coeff =
      (mk_tiler shape tiles_count false ss empty).tile_shape.2) := by
  have hyT := y_ind_mk shape tiles_count true ss empty h1 hd1
  have hyF := y_ind_mk shape tiles_count false ss empty h1 hd1
  have hxT := x_ind_mk shape tiles_count true ss empty h2 hd2
  have hxF := x_ind_mk shape tiles_count false ss empty h2 hd2
  have hA1 : (mk_tiler shape tiles_count true ss empty).y_ind_shifted i =
      ((mk_tiler shape tiles_count true ss empty).y_ind i : ℤ) -
        (((mk_tiler shape tiles_count true ss empty).tile_shape.1 / 4 : ℕ) : ℤ) := by
    unfold Tiler.y_ind_shifted
    rw [outlier_mk]
    rfl
  have hA2 : (mk_tiler shape tiles_count true ss empty).x_ind_shifted j =
      ((mk_tiler shape tiles_count true ss empty).x_ind j : ℤ) -
        (((mk_tiler shape tiles_count true ss empty).tile_shape.2 / 4 : ℕ) : ℤ) := by
    unfold Tiler.x_ind_shifted
    rw [outlier_mk]
    rfl
  have hB1 : (mk_tiler shape tiles_count true ss empty).y_ind i =
      (mk_tiler shape tiles_count false ss empty).y_ind i := by
    rw [hyT i, hyF i]
  have hB2 : (mk_tiler shape tiles_count true ss empty).x_ind j =
      (mk_tiler shape tiles_count false ss empty).x_ind j := by
    rw [hxT j, hxF j]
  have hF1 : (mk_tiler shape tiles_count false ss empty).y_ind_shifted i =
      ((mk_tiler shape tiles_count false ss empty).y_ind i : ℤ) := by
    unfold Tiler.y_ind_shifted
    rw [outlier_mk]
    simp
  have hF2 : (mk_tiler shape tiles_count false ss empty).x_ind_shifted j =
      ((mk_tiler shape tiles_count false ss empty).x_ind j : ℤ) := by
    unfold Tiler.x_ind_shifted
    rw [outlier_mk]
    simp
  refine ⟨⟨hA1, hA2⟩, ⟨hB1, hB2⟩, ⟨?_, ?_⟩, ⟨?_, ?_⟩⟩
  · rw [hA1, sub_add_cancel, hF1, hB1]
  · rw [hA2, sub_add_cancel, hF2, hB2]
  · show (mk_tiler shape tiles_count true ss empty).tile_shape.1 / 2 = _
    rw [tile_shape_mk_1 shape tiles_count true ss empty h1 hd1,
        tile_shape_mk_1 shape tiles_count false ss empty h1 hd1]
    simp [Nat.mul_div_cancel_left]
  · show (mk_tiler shape tiles_count true ss empty).tile_shape.2 / 2 = _
    rw [tile_shape_mk_2 shape tiles_count true ss empty h2 hd2,
        tile_shape_mk_2 shape tiles_count false ss empty h2 hd2]
    simp [Nat.mul_div_cancel_left]

/-- Witness for `outlier_origin_alignment` at shape (8, 12), counts
(2, 3), supersampling 1, tile (1, 2). -/
theorem outlier_origin_alignment_witness :
    0 < 1 ∧ 0 < 2 ∧ 0 < 3 ∧ 2 ∣ 8 ∧ 3 ∣ 12 ∧
    ((mk_tiler (8, 12) (2, 3) true 1 (fun _ _ => 0)).y_ind_shifted 1 =
        ((mk_tiler (8, 12) (2, 3) true 1 (fun _ _ => 0)).y_ind 1 : ℤ) -
          (((mk_tiler (8, 12) (2, 3) true 1 (fun _ _ => 0)).tile_shape.1 / 4 : ℕ) : ℤ) ∧
      (mk_tiler (8, 12) (2, 3) true 1 (fun _ _ => 0)).x_ind_shifted 2 =
        ((mk_tiler (8, 12) (2, 3) true 1 (fun _ _ => 0)).x_ind 2 : ℤ) -
          (((mk_tiler (8, 12) (2, 3) true 1 (fun _ _ => 0)).tile_shape.2 / 4 : ℕ) : ℤ)) ∧
    ((mk_tiler (8, 12) (2, 3) true 1 (fun _ _ => 0)).y_ind 1 =
        (mk_tiler (8, 12) (2, 3) false 1 (fun _ _ => 0)).y_ind 1 ∧
      (mk_tiler (8, 12) (2, 3) true 1 (fun _ _ => 0)).x_ind 2 =
        (mk_tiler (8, 12) (2, 3) false 1 (fun _ _ => 0)).x_ind 2) ∧
    ((mk_tiler (8, 12) (2, 3) true 1 (fun _ _ => 0)).y_ind_shifted 1 +
          (((mk_tiler (8, 12) (2, 3) true 1 (fun _ _ => 0)).tile_shape.1 / 4 : ℕ) : ℤ) =
        (mk_tiler (8, 12) (2, 3) false 1 (fun _ _ => 0)).y_ind_shifted 1 ∧
      (mk_tiler (8, 12) (2, 3) true 1 (fun _ _ => 0)).x_ind_shifted 2 +
          (((mk_tiler (8, 12) (2, 3) true 1 (fun _ _ => 0)).tile_shape.2 / 4 : ℕ) : ℤ) =
        (mk_tiler (8, 12) (2, 3) false 1 (fun _ _ => 0)).x_ind_shifted 2) ∧
    ((mk_tiler (8, 12) (2, 3) true 1 (fun _ _ => 0)).tile_shape.1 /
          (mk_tiler (8, 12) (2, 3) true 1 (fun _ _ => 0)).outlier_coeff =
        (mk_tiler (8, 12) (2, 3) false 1 (fun _ _ => 0)).tile_shape.1 ∧
      (mk_tiler (8, 12) (2, 3) true 1 (fun _ _ => 0)).tile_shape.2 /
          (mk_tiler (8, 12) (2, 3) true 1 (fun _ _ => 0)).outlier_coeff =
        (mk_tiler (8, 12) (2, 3) false 1 (fun _ _ => 0)).tile_shape.2) :=
  ⟨by decide, by decide, by decide, by decide, by decide,
   outlier_origin_alignment (8, 12) (2, 3) 1 (fun _ _ => 0)
     (by decide) (by decide) (by decide) (by decide) (by decide) 1 2⟩

/-! ### C4: the tile_indices grid -/

theorem length_flatMap_range_map {α : Type} (n m : ℕ) (f : ℕ → ℕ → α) :
    ((List.range n).flatMap fun i => (List.range m).map (f i)).length = n * m := by
  induction n with
  | zero => simp
  | succ n ih =>
    rw [List.range_succ, List.flatMap_append, List.length_append, ih]
    have hsing : ([n].flatMap fun i => (List.range m).map (f i)) =
        (List.range m).map (f n) := by
      simp
    rw [hsing, List.length_map, List.length_range]
    ring

theorem getD_flatMap_range_map {α : Type} (n m : ℕ) (f : ℕ → ℕ → α) (d : α) :
    ∀ r c : ℕ, r < n → c < m →
      ((List.range n).flatMap fun i => (List.range m).map (f i)).getD (r * m + c) d =
        f r c := by
  induction n with
  | zero => intro r c hr _; omega
  | succ n ih =>
    intro r c hr hc
    have hlen := length_flatMap_range_map n m f
    rw [List.range_succ, List.flatMap_append]
    by_cases hrn : r < n
    · have hidx : r * m + c <
          ((List.range n).flatMap fun i => (List.range m).map (f i)).length := by
        rw [hlen]
        have ha : r * m + c < (r + 1) * m := by
          rw [add_mul, one_mul]
          omega
        have hb : (r + 1) * m ≤ n * m := Nat.mul_le_mul_right m hrn
        omega
      rw [List.getD_append _ _ _ _ hidx]
      exact ih r c hrn hc
    · have hreq : r = n := by omega
      subst hreq
      have hge : ((List.range r).flatMap fun i => (List.range m).map (f i)).length ≤
          r * m + c := by
        rw [hlen]
        exact Nat.le_add_right _ _
      rw [List.getD_append_right _ _ _ _ hge, hlen, Nat.add_sub_cancel_left]
      have hsing : ([r].flatMap fun i => (List.range m).map (f i)) =
          (List.range m).map (f r) := by
        simp
      have hcl : c < ((List.range m).map (f r)).length := by
        rw [List.length_map, List.length_range]
        exact hc
      rw [hsing, List.getD_eq_getElem _ _ hcl, List.getElem_map, List.getElem_range]

theorem length_tile_indices (t : Tiler) :
    t.tile_indices.length = t.tiles_count.1 * t.tiles_count.2 :=
  length_flatMap_range_map _ _ _

/-- C4: `tile_indices` is a `tiles_count`-shaped grid of (y, x) origins:
it has `tiles_count[0] * tiles_count[1]` entries, the entry at flat
position `r * tiles_count[1] + c` (row-major, y varying slower) is the
pair of per-axis origins for row `r` and column `c`, and for
`outlier=False` that pair is exactly
`(r * tile_shape[0], c * tile_shape[1])` (the claim's
`i * tile_shape / outlier_coeff` with `outlier_coeff = 1`). -/
theorem tile_indices_grid (shape tiles_count : ℕ × ℕ) (outlier : Bool) (ss : ℕ)
    (empty : ℕ → ℕ → ℚ) (r c : ℕ) (hr : r < tiles_count.1) (hc : c < tiles_count.2) :
    (mk_tiler shape tiles_count outlier ss empty).tile_indices.length =
      tiles_count.1 * tiles_count.2 ∧
    (mk_tiler shape tiles_count outlier ss empty).tile_indices.getD
        (r * tiles_count.2 + c) (0, 0) =
      ((mk_tiler shape tiles_count outlier ss empty).y_ind_shifted r,
       (mk_tiler shape tiles_count outlier ss empty).x_ind_shifted c) ∧
    (outlier = false →
      (mk_tiler shape tiles_count outlier ss empty).tile_indices.getD
          (r * tiles_count.2 + c) (0, 0) =
        (((r * (mk_tiler shape tiles_count outlier ss empty).tile_shape.1 : ℕ) : ℤ),
         ((c * (mk_tiler shape tiles_count outlier ss empty).tile_shape.2 : ℕ) : ℤ))) := by
  have hgrid : (mk_tiler shape tiles_count outlier ss empty).tile_indices.getD
      (r * tiles_count.2 + c) (0, 0) =
      ((mk_tiler shape tiles_count outlier ss empty).y_ind_shifted r,
       (mk_tiler shape tiles_count outlier ss empty).x_ind_shifted c) :=
    getD_flatMap_range_map tiles_count.1 tiles_count.2 _ (0, 0) r c hr hc
  refine ⟨length_tile_indices _, hgrid, ?_⟩
  intro hout
  subst hout
  have hoc : (mk_tiler shape tiles_count false ss empty).outlier_coeff = 1 := rfl
  rw [hgrid]
  unfold Tiler.y_ind_shifted Tiler.x_ind_shifted Tiler.y_ind Tiler.x_ind
  rw [outlier_mk, hoc]
  simp

/-- Witness for `tile_indices_grid` at shape (8, 12), counts (2, 3),
grid cell (1, 2). -/
theorem tile_indices_grid_witness :
    1 < 2 ∧ 2 < 3 ∧
    ((mk_tiler (8, 12) (2, 3) false 1 (fun _ _ => 0)).tile_indices.length = 2 * 3 ∧
     (mk_tiler (8, 12) (2, 3) false 1 (fun _ _ => 0)).tile_indices.getD
        (1 * 3 + 2) (0, 0) =
       ((mk_tiler (8, 12) (2, 3) false 1 (fun _ _ => 0)).y_ind_shifted 1,
        (mk_tiler (8, 12) (2, 3) false 1 (fun _ _ => 0)).x_ind_shifted 2) ∧
     (false = false →
       (mk_tiler (8, 12) (2, 3) false 1 (fun _ _ => 0)).tile_indices.getD
          (1 * 3 + 2) (0, 0) =
         (((1 * (mk_tiler (8, 12) (2, 3) false 1 (fun _ _ => 0)).tile_shape.1 : ℕ) : ℤ),
          ((2 * (mk_tiler (8, 12) (2, 3) false 1 (fun _ _ => 0)).tile_shape.2 : ℕ) : ℤ)))) :=
  ⟨by decide, by decide,
   tile_indices_grid (8, 12) (2, 3) false 1 (fun _ _ => 0) 1 2 (by decide) (by decide)⟩

/-! ### Evaluation of `insert` -/

theorem py_slice_index_ofNat (n len : ℕ) : py_slice_index (n : ℤ) len = min n len := by
  unfold py_slice_index
  rw [if_neg (by omega : ¬ ((n : ℤ) < 0))]
  omega

theorem py_slice_index_neg (i : ℤ) (len : ℕ) (hneg : i < 0) :
    py_slice_index i len = (i + len).toNat := by
  unfold py_slice_index
  rw [if_pos hneg]
  omega


/-- For valid configurations, in-range indices and a tile whose shape
broadcasts to the interior region, `insert` succeeds and the resulting
accumulator is the slice-assignment update. -/
theorem insert_eval (shape tiles_count : ℕ × ℕ) (outlier : Bool) (ss : ℕ)
    (empty : ℕ → ℕ → ℚ) (hss : 0 < ss) (h1 : 0 < tiles_count.1)
    (h2 : 0 < tiles_count.2) (hd1 : tiles_count.1 ∣ shape.1)
    (hd2 : tiles_count.2 ∣ shape.2) (tile : Tile) (r c : ℕ)
    (hr : r < tiles_count.1) (hc : c < tiles_count.2)
    (hbh : tile.h = shape.1 / tiles_count.1 ∨ tile.h = 1)
    (hbw : tile.w = shape.2 / tiles_count.2 ∨ tile.w = 1) :
    (mk_tiler shape tiles_count outlier ss empty).insert tile (r, c) =
      .ok { mk_tiler shape tiles_count outlier ss empty with
        overall := slice_write empty tile
          (r * (shape.1 / tiles_count.1)) ((shape.1 / tiles_count.1) * (r + 1))
          (c * (shape.2 / tiles_count.2)) ((shape.2 / tiles_count.2) * (c + 1)) } := by
  have his1 := interior_shape_mk_1 shape tiles_count outlier ss empty hss h1 hd1
  have his2 := interior_shape_mk_2 shape tiles_count outlier ss empty hss h2 hd2
  have hovs := overall_shape_mk shape tiles_count outlier ss empty hss
  have hov1 : (mk_tiler shape tiles_count outlier ss empty).overall_shape.1 = shape.1 :=
    congrArg Prod.fst hovs
  have hov2 : (mk_tiler shape tiles_count outlier ss empty).overall_shape.2 = shape.2 :=
    congrArg Prod.snd hovs
  have hs1 : tiles_count.1 * (shape.1 / tiles_count.1) = shape.1 := Nat.mul_div_cancel' hd1
  have hs2 : tiles_count.2 * (shape.2 / tiles_count.2) = shape.2 := Nat.mul_div_cancel' hd2
  have hlo0 : min (r * (shape.1 / tiles_count.1)) shape.1 = r * (shape.1 / tiles_count.1) :=
    min_eq_left (le_trans
      (Nat.mul_le_mul_right (shape.1 / tiles_count.1) (Nat.le_of_lt hr)) (le_of_eq hs1))
  have hhi0 : min ((shape.1 / tiles_count.1) * (r + 1)) shape.1 =
      (shape.1 / tiles_count.1) * (r + 1) := by
    apply min_eq_left
    rw [mul_comm]
    exact le_trans (Nat.mul_le_mul_right (shape.1 / tiles_count.1)
      (Nat.succ_le_of_lt hr)) (le_of_eq hs1)
  have hlo1 : min (c * (shape.2 / tiles_count.2)) shape.2 = c * (shape.2 / tiles_count.2) :=
    min_eq_left (le_trans
      (Nat.mul_le_mul_right (shape.2 / tiles_count.2) (Nat.le_of_lt hc)) (le_of_eq hs2))
  have hhi1 : min ((shape.2 / tiles_count.2) * (c + 1)) shape.2 =
      (shape.2 / tiles_count.2) * (c + 1) := by
    apply min_eq_left
    rw [mul_comm]
    exact le_trans (Nat.mul_le_mul_right (shape.2 / tiles_count.2)
      (Nat.succ_le_of_lt hc)) (le_of_eq hs2)
  have hsub1 : (shape.1 / tiles_count.1) * (r + 1) - r * (shape.1 / tiles_count.1) =
      shape.1 / tiles_count.1 := by
    rw [Nat.mul_succ, mul_comm (shape.1 / tiles_count.1) r, Nat.add_sub_cancel_left]
  have hsub2 : (shape.2 / tiles_count.2) * (c + 1) - c * (shape.2 / tiles_count.2) =
      shape.2 / tiles_count.2 := by
    rw [Nat.mul_succ, mul_comm (shape.2 / tiles_count.2) c, Nat.add_sub_cancel_left]
  have hcast0 : (r : ℤ) * ((shape.1 / tiles_count.1 : ℕ) : ℤ) =
      ((r * (shape.1 / tiles_count.1) : ℕ) : ℤ) := by
    push_cast
    ring
  have hcast1 : ((shape.1 / tiles_count.1 : ℕ) : ℤ) * ((r : ℤ) + 1) =
      (((shape.1 / tiles_count.1) * (r + 1) : ℕ) : ℤ) := by
    push_cast
    ring
  have hcast2 : (c : ℤ) * ((shape.2 / tiles_count.2 : ℕ) : ℤ) =
      ((c * (shape.2 / tiles_count.2) : ℕ) : ℤ) := by
    push_cast
    ring
  have hcast3 : ((shape.2 / tiles_count.2 : ℕ) : ℤ) * ((c : ℤ) + 1) =
      (((shape.2 / tiles_count.2) * (c + 1) : ℕ) : ℤ) := by
    push_cast
    ring
  simp only [Tiler.insert]
  rw [his1, his2, hov1, hov2, hcast0, hcast1, hcast2, hcast3]
  simp only [py_slice_index_ofNat]
  rw [hlo0, hhi0, hlo1, hhi1, hsub1, hsub2]
  rw [if_pos ⟨hbh, hbw⟩]
  rfl

/-! ### C1: insert writes exactly the interior region -/

/-- C1: for a valid tiler and in-range grid indices, inserting a tile of
the interior shape `tile_shape / supersampling / outlier_coeff` succeeds
and (i) every accumulator cell of the rectangle starting at
`(row * interior_shape[0], col * interior_shape[1])` with extent
`interior_shape` holds the corresponding tile value — a full
replacement, not additive; (ii) every cell outside that rectangle is
unchanged; and (iii) for `outlier=False` the targeted rectangles over
all in-range `(row, col)` partition the accumulator exactly: each
accumulator cell lies in the rectangle of exactly one grid index. -/
theorem insert_region_exact (shape tiles_count : ℕ × ℕ) (outlier : Bool) (ss : ℕ)
    (empty : ℕ → ℕ → ℚ) (tile : Tile) (r c : ℕ)
    (hss : 0 < ss) (h1 : 0 < tiles_count.1) (h2 : 0 < tiles_count.2)
    (hd1 : tiles_count.1 ∣ shape.1) (hd2 : tiles_count.2 ∣ shape.2)
    (hr : r < tiles_count.1) (hc : c < tiles_count.2)
    (hth : tile.h = (mk_tiler shape tiles_count outlier ss empty).interior_shape.1)
    (htw : tile.w = (mk_tiler shape tiles_count outlier ss empty).interior_shape.2) :
    ((mk_tiler shape tiles_count outlier ss empty).interior_shape =
        (shape.1 / tiles_count.1, shape.2 / tiles_count.2) ∧
      (mk_tiler shape tiles_count outlier ss empty).overall_shape = shape) ∧
    ∃ t2, (mk_tiler shape tiles_count outlier ss empty).insert tile (r, c) = .ok t2 ∧
      (∀ y x, r * (shape.1 / tiles_count.1) ≤ y →
        y < (r + 1) * (shape.1 / tiles_count.1) →
        c * (shape.2 / tiles_count.2) ≤ x →
        x < (c + 1) * (shape.2 / tiles_count.2) →
        t2.overall y x =
          tile.data (y - r * (shape.1 / tiles_count.1))
            (x - c * (shape.2 / tiles_count.2))) ∧
      (∀ y x,
        ¬ (r * (shape.1 / tiles_count.1) ≤ y ∧
           y < (r + 1) * (shape.1 / tiles_count.1) ∧
           c * (shape.2 / tiles_count.2) ≤ x ∧
           x < (c + 1) * (shape.2 / tiles_count.2)) →
        t2.overall y x = empty y x) ∧
      (outlier = false → ∀ y x, y < shape.1 → x < shape.2 →
        ∃! p : ℕ × ℕ, p.1 < tiles_count.1 ∧ p.2 < tiles_count.2 ∧
          p.1 * (shape.1 / tiles_count.1) ≤ y ∧
          y < (p.1 + 1) * (shape.1 / tiles_count.1) ∧
          p.2 * (shape.2 / tiles_count.2) ≤ x ∧
          x < (p.2 + 1) * (shape.2 / tiles_count.2)) := by
  have his1 := interior_shape_mk_1 shape tiles_count outlier ss empty hss h1 hd1
  have his2 := interior_shape_mk_2 shape tiles_count outlier ss empty hss h2 hd2
  have hth' : tile.h = shape.1 / tiles_count.1 := by rw [hth, his1]
  have htw' : tile.w = shape.2 / tiles_count.2 := by rw [htw, his2]
  have hs1 : tiles_count.1 * (shape.1 / tiles_count.1) = shape.1 := Nat.mul_div_cancel' hd1
  have hs2 : tiles_count.2 * (shape.2 / tiles_count.2) = shape.2 := Nat.mul_div_cancel' hd2
  constructor
  · constructor
    · rw [Prod.ext_iff]
      exact ⟨his1, his2⟩
    · exact overall_shape_mk shape tiles_count outlier ss empty hss
  refine ⟨_, insert_eval shape tiles_count outlier ss empty hss h1 h2 hd1 hd2 tile r c
    hr hc (Or.inl hth') (Or.inl htw'), ?_, ?_, ?_⟩
  · intro y x hy1 hy2 hx1 hx2
    have hy2' : y < (shape.1 / tiles_count.1) * (r + 1) := by rwa [mul_comm] at hy2
    have hx2' : x < (shape.2 / tiles_count.2) * (c + 1) := by rwa [mul_comm] at hx2
    simp only [slice_write]
    rw [if_pos ⟨hy1, hy2', hx1, hx2'⟩]
    have hidx1 : (if tile.h = 1 then 0 else y - r * (shape.1 / tiles_count.1)) =
        y - r * (shape.1 / tiles_count.1) := by
      by_cases hh : tile.h = 1
      · rw [if_pos hh]
        have hk1 : shape.1 / tiles_count.1 = 1 := by rw [← hth', hh]
        rw [hk1] at hy1 hy2 ⊢
        omega
      · rw [if_neg hh]
    have hidx2 : (if tile.w = 1 then 0 else x - c * (shape.2 / tiles_count.2)) =
        x - c * (shape.2 / tiles_count.2) := by
      by_cases hw : tile.w = 1
      · rw [if_pos hw]
        have hk2 : shape.2 / tiles_count.2 = 1 := by rw [← htw', hw]
        rw [hk2] at hx1 hx2 ⊢
        omega
      · rw [if_neg hw]
    rw [hidx1, hidx2]
  · intro y x hn
    simp only [slice_write]
    rw [if_neg]
    rintro ⟨hy1, hy2, hx1, hx2⟩
    exact hn ⟨hy1, by rwa [mul_comm] at hy2, hx1, by rwa [mul_comm] at hx2⟩
  · intro _ y x hy hx
    have hk1 : 0 < shape.1 / tiles_count.1 := by
      rcases Nat.eq_zero_or_pos (shape.1 / tiles_count.1) with h0 | hpos
      · rw [h0, mul_zero] at hs1
        omega
      · exact hpos
    have hk2 : 0 < shape.2 / tiles_count.2 := by
      rcases Nat.eq_zero_or_pos (shape.2 / tiles_count.2) with h0 | hpos
      · rw [h0, mul_zero] at hs2
        omega
      · exact hpos
    refine ⟨(y / (shape.1 / tiles_count.1), x / (shape.2 / tiles_count.2)),
      ⟨?_, ?_, ?_, ?_, ?_, ?_⟩, ?_⟩
    · exact (Nat.div_lt_iff_lt_mul hk1).mpr (by rw [hs1]; exact hy)
    · exact (Nat.div_lt_iff_lt_mul hk2).mpr (by rw [hs2]; exact hx)
    · exact Nat.div_mul_le_self y _
    · rw [add_mul, one_mul]
      exact Nat.lt_div_mul_add hk1
    · exact Nat.div_mul_le_self x _
    · rw [add_mul, one_mul]
      exact Nat.lt_div_mul_add hk2
    · rintro ⟨a, b⟩ ⟨ha1, hb1, ha2, ha3, hb2, hb3⟩
      have hae : a = y / (shape.1 / tiles_count.1) := by
        have hle : a ≤ y / (shape.1 / tiles_count.1) :=
          (Nat.le_div_iff_mul_le hk1).mpr ha2
        have hlt : y / (shape.1 / tiles_count.1) < a + 1 :=
          (Nat.div_lt_iff_lt_mul hk1).mpr ha3
        omega
      have hbe : b = x / (shape.2 / tiles_count.2) := by
        have hle : b ≤ x / (shape.2 / tiles_count.2) :=
          (Nat.le_div_iff_mul_le hk2).mpr hb2
        have hlt : x / (shape.2 / tiles_count.2) < b + 1 :=
          (Nat.div_lt_iff_lt_mul hk2).mpr hb3
        omega
      simp only [Prod.mk.injEq]
      exact ⟨hae, hbe⟩

/-- Witness for `insert_region_exact` at shape (4, 6), counts (2, 3),
supersampling 2, outlier true, tile (2, 2), grid cell (1, 2). -/
theorem insert_region_exact_witness :
    0 < 2 ∧ 0 < 2 ∧ 0 < 3 ∧ 2 ∣ 4 ∧ 3 ∣ 6 ∧ 1 < 2 ∧ 2 < 3 ∧
    (Tile.mk 2 2 (fun _ _ => 7)).h =
      (mk_tiler (4, 6) (2, 3) true 2 (fun _ _ => 0)).interior_shape.1 ∧
    (Tile.mk 2 2 (fun _ _ => 7)).w =
      (mk_tiler (4, 6) (2, 3) true 2 (fun _ _ => 0)).interior_shape.2 ∧
    (((mk_tiler (4, 6) (2, 3) true 2 (fun _ _ => 0)).interior_shape =
        (4 / 2, 6 / 3) ∧
      (mk_tiler (4, 6) (2, 3) true 2 (fun _ _ => 0)).overall_shape = (4, 6)) ∧
     ∃ t2, (mk_tiler (4, 6) (2, 3) true 2 (fun _ _ => 0)).insert
          (Tile.mk 2 2 (fun _ _ => 7)) (1, 2) = .ok t2 ∧
        (∀ y x, 1 * (4 / 2) ≤ y → y < (1 + 1) * (4 / 2) →
          2 * (6 / 3) ≤ x → x < (2 + 1) * (6 / 3) →
          t2.overall y x = (Tile.mk 2 2 (fun _ _ => 7)).data
            (y - 1 * (4 / 2)) (x - 2 * (6 / 3))) ∧
        (∀ y x, ¬ (1 * (4 / 2) ≤ y ∧ y < (1 + 1) * (4 / 2) ∧
            2 * (6 / 3) ≤ x ∧ x < (2 + 1) * (6 / 3)) →
          t2.overall y x = 0) ∧
        (true = false → ∀ y x, y < 4 → x < 6 →
          ∃! p : ℕ × ℕ, p.1 < 2 ∧ p.2 < 3 ∧
            p.1 * (4 / 2) ≤ y ∧ y < (p.1 + 1) * (4 / 2) ∧
            p.2 * (6 / 3) ≤ x ∧ x < (p.2 + 1) * (6 / 3))) :=
  ⟨by decide, by decide, by decide, by decide, by decide, by decide, by decide,
   by decide, by decide,
   insert_region_exact (4, 6) (2, 3) true 2 (fun _ _ => 0)
     (Tile.mk 2 2 (fun _ _ => 7)) 1 2 (by decide) (by decide) (by decide)
     (by decide) (by decide) (by decide) (by decide) (by decide) (by decide)⟩

/-! ### C9: insert performs no validation -/

/-- The tiler used in the C9 counterexample: base shape (4, 4), a 2 by 2
grid, no supersampling, no outlier, zero-initialized accumulator.  Its
interior tile shape is (2, 2). -/
def tiler_c9 : Tiler := mk_tiler (4, 4) (2, 2) false 1 (fun _ _ => 0)

/-- A (1, 2) tile of constant value 5 — the wrong shape for
`tiler_c9`, but broadcastable. -/
def tile_wrong : Tile := Tile.mk 1 2 (fun _ _ => 5)

/-- A correctly shaped (2, 2) tile of constant value 7 for `tiler_c9`. -/
def tile_exact : Tile := Tile.mk 2 2 (fun _ _ => 7)

/-- C9 counterexample: `insert` raises no `ShapeMismatchError` (none
exists in the code).  Inserting a tile whose shape differs from the
interior tile shape does not fail at all — numpy broadcasting silently
writes the (1, 2) tile across the whole (2, 2) target region — and the
out-of-grid negative index pair (-2, 0) is silently accepted as well:
Python wraps the slice bounds around, so the correctly shaped tile is
written into the aliased region of grid cell (0, 0) without any
error. -/
theorem insert_silent_counterexample :
    tile_wrong.h ≠ tiler_c9.interior_shape.1 ∧
    (∃ t2, tiler_c9.insert tile_wrong (0, 0) = .ok t2 ∧
      t2.overall 0 0 = 5 ∧ t2.overall 1 1 = 5) ∧
    (∃ t3, tiler_c9.insert tile_exact (-2, 0) = .ok t3 ∧
      t3.overall 0 0 = 7 ∧ t3.overall 1 1 = 7) := by
  refine ⟨by decide, ?_, ?_⟩
  · refine ⟨_, insert_eval (4, 4) (2, 2) false 1 (fun _ _ => 0) (by decide) (by decide)
      (by decide) (by decide) (by decide) tile_wrong 0 0 (by decide) (by decide)
      (Or.inr rfl) (Or.inl (by decide)), by decide, by decide⟩
  · have hneg : tiler_c9.insert tile_exact (-2, 0) =
        .ok { tiler_c9 with
          overall := slice_write (fun _ _ => 0) tile_exact 0 2 0 2 } := by
      rfl
    exact ⟨_, hneg, by decide, by decide⟩

/-- C9 amended: `insert` validates nothing; the code has no
`ShapeMismatchError`.  The write is a numpy slice assignment whose
bounds follow Python index resolution (negative bounds wrap around the
axis, everything is clamped).  (i) A wrong-shaped but numpy-broadcastable
tile (here a single row) at in-range indices is silently written into
the full target region; (ii) grid indices at or past `tiles_count`
clamp to an empty region, where a correctly-shaped tile fails with
numpy's broadcast `ValueError` while (iii) a degenerate broadcastable
(1, 1) tile is silently ignored, leaving the accumulator untouched; and
(iv) negative out-of-grid indices below -1 wrap around: index
`row - tiles_count[0]` resolves to exactly the same region as in-range
`row`, so a correctly-shaped tile there is silently written into the
aliased cell, raising nothing. -/
theorem insert_no_validation (shape tiles_count : ℕ × ℕ) (outlier : Bool) (ss : ℕ)
    (empty : ℕ → ℕ → ℚ) (hss : 0 < ss) (h1 : 0 < tiles_count.1)
    (h2 : 0 < tiles_count.2) (hd1 : tiles_count.1 ∣ shape.1)
    (hd2 : tiles_count.2 ∣ shape.2) (r c : ℕ) (hr : r < tiles_count.1)
    (hc : c < tiles_count.2) (hrr : r + 1 < tiles_count.1)
    (hk1 : 2 ≤ shape.1 / tiles_count.1)
    (hk2 : 0 < shape.2 / tiles_count.2) (tileA tileB tileC : Tile)
    (hB1 : tileB.h = 1) (hB2 : tileB.w = shape.2 / tiles_count.2)
    (hA1 : tileA.h = shape.1 / tiles_count.1) (hA2 : tileA.w = shape.2 / tiles_count.2)
    (hC1 : tileC.h = 1) (hC2 : tileC.w = 1) :
    (tileB.h ≠ (mk_tiler shape tiles_count outlier ss empty).interior_shape.1 ∧
      ∃ t2, (mk_tiler shape tiles_count outlier ss empty).insert tileB (r, c) = .ok t2 ∧
        t2.overall (r * (shape.1 / tiles_count.1)) (c * (shape.2 / tiles_count.2)) =
          tileB.data 0 0) ∧
    ((mk_tiler shape tiles_count outlier ss empty).insert tileA (tiles_count.1, c) =
      .error .broadcastError) ∧
    (∃ t2, (mk_tiler shape tiles_count outlier ss empty).insert tileC
        (tiles_count.1, c) = .ok t2 ∧
      ∀ y x, t2.overall y x = empty y x) ∧
    ((mk_tiler shape tiles_count outlier ss empty).insert tileA
        ((r : ℤ) - (tiles_count.1 : ℤ), (c : ℤ)) =
      (mk_tiler shape tiles_count outlier ss empty).insert tileA ((r : ℤ), (c : ℤ)) ∧
     ∃ t2, (mk_tiler shape tiles_count outlier ss empty).insert tileA
          ((r : ℤ) - (tiles_count.1 : ℤ), (c : ℤ)) = .ok t2 ∧
       t2.overall (r * (shape.1 / tiles_count.1)) (c * (shape.2 / tiles_count.2)) =
         tileA.data 0 0) := by
  have his1 := interior_shape_mk_1 shape tiles_count outlier ss empty hss h1 hd1
  have his2 := interior_shape_mk_2 shape tiles_count outlier ss empty hss h2 hd2
  have hovs := overall_shape_mk shape tiles_count outlier ss empty hss
  have hov1 : (mk_tiler shape tiles_count outlier ss empty).overall_shape.1 = shape.1 :=
    congrArg Prod.fst hovs
  have hov2 : (mk_tiler shape tiles_count outlier ss empty).overall_shape.2 = shape.2 :=
    congrArg Prod.snd hovs
  have hs1 : tiles_count.1 * (shape.1 / tiles_count.1) = shape.1 := Nat.mul_div_cancel' hd1
  have hs2 : tiles_count.2 * (shape.2 / tiles_count.2) = shape.2 := Nat.mul_div_cancel' hd2
  have hb0 : (tiles_count.1 : ℤ) * ((shape.1 / tiles_count.1 : ℕ) : ℤ) =
      ((tiles_count.1 * (shape.1 / tiles_count.1) : ℕ) : ℤ) := by
    push_cast
    ring
  have hb1 : ((shape.1 / tiles_count.1 : ℕ) : ℤ) * ((tiles_count.1 : ℤ) + 1) =
      (((shape.1 / tiles_count.1) * (tiles_count.1 + 1) : ℕ) : ℤ) := by
    push_cast
    ring
  have hcast2 : (c : ℤ) * ((shape.2 / tiles_count.2 : ℕ) : ℤ) =
      ((c * (shape.2 / tiles_count.2) : ℕ) : ℤ) := by
    push_cast
    ring
  have hcast3 : ((shape.2 / tiles_count.2 : ℕ) : ℤ) * ((c : ℤ) + 1) =
      (((shape.2 / tiles_count.2) * (c + 1) : ℕ) : ℤ) := by
    push_cast
    ring
  have hlo0 : min (tiles_count.1 * (shape.1 / tiles_count.1)) shape.1 = shape.1 := by
    rw [hs1, min_self]
  have hhi0 : min ((shape.1 / tiles_count.1) * (tiles_count.1 + 1)) shape.1 = shape.1 := by
    apply min_eq_right
    rw [Nat.mul_succ, mul_comm (shape.1 / tiles_count.1) tiles_count.1, hs1]
    exact Nat.le_add_right _ _
  have hlo1 : min (c * (shape.2 / tiles_count.2)) shape.2 = c * (shape.2 / tiles_count.2) :=
    min_eq_left (le_trans
      (Nat.mul_le_mul_right (shape.2 / tiles_count.2) (Nat.le_of_lt hc)) (le_of_eq hs2))
  have hhi1 : min ((shape.2 / tiles_count.2) * (c + 1)) shape.2 =
      (shape.2 / tiles_count.2) * (c + 1) := by
    apply min_eq_left
    rw [mul_comm]
    exact le_trans (Nat.mul_le_mul_right (shape.2 / tiles_count.2)
      (Nat.succ_le_of_lt hc)) (le_of_eq hs2)
  have hsub1 : (shape.1 / tiles_count.1) * (r + 1) - r * (shape.1 / tiles_count.1) =
      shape.1 / tiles_count.1 := by
    rw [Nat.mul_succ, mul_comm (shape.1 / tiles_count.1) r, Nat.add_sub_cancel_left]
  have hsub2 : (shape.2 / tiles_count.2) * (c + 1) - c * (shape.2 / tiles_count.2) =
      shape.2 / tiles_count.2 := by
    rw [Nat.mul_succ, mul_comm (shape.2 / tiles_count.2) c, Nat.add_sub_cancel_left]
  have hin1 : r * (shape.1 / tiles_count.1) <
      (shape.1 / tiles_count.1) * (r + 1) := by
    rw [Nat.mul_succ, mul_comm (shape.1 / tiles_count.1) r]
    omega
  have hin2 : c * (shape.2 / tiles_count.2) <
      (shape.2 / tiles_count.2) * (c + 1) := by
    rw [Nat.mul_succ, mul_comm (shape.2 / tiles_count.2) c]
    omega
  have hk1pos : (0 : ℤ) < ((shape.1 / tiles_count.1 : ℕ) : ℤ) := by
    exact_mod_cast lt_of_lt_of_le two_pos hk1
  have hcastSh : ((shape.1 : ℕ) : ℤ) =
      (tiles_count.1 : ℤ) * ((shape.1 / tiles_count.1 : ℕ) : ℤ) := by
    exact_mod_cast hs1.symm
  have hrZ : (r : ℤ) < (tiles_count.1 : ℤ) := by exact_mod_cast hr
  have hrrZ : (r : ℤ) + 1 < (tiles_count.1 : ℤ) := by exact_mod_cast hrr
  have hneglo : py_slice_index (((r : ℤ) - (tiles_count.1 : ℤ)) *
      ((shape.1 / tiles_count.1 : ℕ) : ℤ)) shape.1 = r * (shape.1 / tiles_count.1) := by
    have hA : ((r : ℤ) - (tiles_count.1 : ℤ)) * ((shape.1 / tiles_count.1 : ℕ) : ℤ) < 0 :=
      mul_neg_of_neg_of_pos (by omega) hk1pos
    have hB : ((r : ℤ) - (tiles_count.1 : ℤ)) * ((shape.1 / tiles_count.1 : ℕ) : ℤ) +
        ((shape.1 : ℕ) : ℤ) = ((r * (shape.1 / tiles_count.1) : ℕ) : ℤ) := by
      rw [hcastSh]
      push_cast
      ring
    rw [py_slice_index_neg _ _ hA, hB]
    omega
  have hneghi : py_slice_index (((shape.1 / tiles_count.1 : ℕ) : ℤ) *
      (((r : ℤ) - (tiles_count.1 : ℤ)) + 1)) shape.1 =
      (shape.1 / tiles_count.1) * (r + 1) := by
    have hA : ((shape.1 / tiles_count.1 : ℕ) : ℤ) *
        (((r : ℤ) - (tiles_count.1 : ℤ)) + 1) < 0 :=
      mul_neg_of_pos_of_neg hk1pos (by omega)
    have hB : ((shape.1 / tiles_count.1 : ℕ) : ℤ) *
        (((r : ℤ) - (tiles_count.1 : ℤ)) + 1) + ((shape.1 : ℕ) : ℤ) =
        (((shape.1 / tiles_count.1) * (r + 1) : ℕ) : ℤ) := by
      rw [hcastSh]
      push_cast
      ring
    rw [py_slice_index_neg _ _ hA, hB]
    omega
  have hnegeval : (mk_tiler shape tiles_count outlier ss empty).insert tileA
      ((r : ℤ) - (tiles_count.1 : ℤ), (c : ℤ)) =
      .ok { mk_tiler shape tiles_count outlier ss empty with
        overall := slice_write empty tileA
          (r * (shape.1 / tiles_count.1)) ((shape.1 / tiles_count.1) * (r + 1))
          (c * (shape.2 / tiles_count.2)) ((shape.2 / tiles_count.2) * (c + 1)) } := by
    simp only [Tiler.insert]
    rw [his1, his2, hov1, hov2, hneglo, hneghi, hcast2, hcast3]
    simp only [py_slice_index_ofNat]
    rw [hlo1, hhi1, hsub1, hsub2]
    rw [if_pos ⟨Or.inl hA1, Or.inl hA2⟩]
    rfl
  have hposeval := insert_eval shape tiles_count outlier ss empty hss h1 h2 hd1 hd2
    tileA r c hr hc (Or.inl hA1) (Or.inl hA2)
  refine ⟨⟨?_, ?_⟩, ?_, ?_, ?_, ?_⟩
  · rw [hB1, his1]
    omega
  · refine ⟨_, insert_eval shape tiles_count outlier ss empty hss h1 h2 hd1 hd2 tileB
      r c hr hc (Or.inr hB1) (Or.inl hB2), ?_⟩
    simp only [slice_write]
    rw [if_pos ⟨le_refl _, hin1, le_refl _, hin2⟩]
    have hi1 : (if tileB.h = 1 then 0
        else r * (shape.1 / tiles_count.1) - r * (shape.1 / tiles_count.1)) = 0 := by
      rw [if_pos hB1]
    have hi2 : (if tileB.w = 1 then 0
        else c * (shape.2 / tiles_count.2) - c * (shape.2 / tiles_count.2)) = 0 := by
      by_cases hw : tileB.w = 1
      · rw [if_pos hw]
      · rw [if_neg hw, Nat.sub_self]
    rw [hi1, hi2]
  · simp only [Tiler.insert]
    rw [his1, his2, hov1, hov2, hb0, hb1]
    simp only [py_slice_index_ofNat]
    rw [hlo0, hhi0, Nat.sub_self]
    rw [if_neg]
    rintro ⟨hh, _⟩
    rcases hh with h0 | h1
    · rw [hA1] at h0
      omega
    · rw [hA1] at h1
      omega
  · have hins : (mk_tiler shape tiles_count outlier ss empty).insert tileC
        (tiles_count.1, c) =
        .ok { mk_tiler shape tiles_count outlier ss empty with
          overall := slice_write empty tileC shape.1 shape.1
            (c * (shape.2 / tiles_count.2)) ((shape.2 / tiles_count.2) * (c + 1)) } := by
      simp only [Tiler.insert]
      rw [his1, his2, hov1, hov2, hb0, hb1, hcast2, hcast3]
      simp only [py_slice_index_ofNat]
      rw [hlo0, hhi0, hlo1, hhi1, Nat.sub_self, hsub2]
      rw [if_pos ⟨Or.inr hC1, Or.inr hC2⟩]
      rfl
    refine ⟨_, hins, ?_⟩
    intro y x
    simp only [slice_write]
    rw [if_neg]
    rintro ⟨hge, hlt, _⟩
    omega
  · rw [hnegeval, hposeval]
  · refine ⟨_, hnegeval, ?_⟩
    simp only [slice_write]
    rw [if_pos ⟨le_refl _, hin1, le_refl _, hin2⟩]
    have hAne : ¬ tileA.h = 1 := by
      rw [hA1]
      omega
    rw [if_neg hAne, Nat.sub_self]
    have hiw : (if tileA.w = 1 then 0
        else c * (shape.2 / tiles_count.2) - c * (shape.2 / tiles_count.2)) = 0 := by
      by_cases hw : tileA.w = 1
      · rw [if_pos hw]
      · rw [if_neg hw, Nat.sub_self]
    rw [hiw]

/-- Witness for `insert_no_validation` at shape (4, 4), counts (2, 2),
cell (0, 0), with tiles (2, 2), (1, 2) and (1, 1). -/
theorem insert_no_validation_witness :
    0 < 1 ∧ 0 < 2 ∧ 2 ∣ 4 ∧ 0 < 2 ∧ 0 + 1 < 2 ∧ 2 ≤ 4 / 2 ∧ 0 < 4 / 2 ∧
    ((tile_wrong.h ≠ (mk_tiler (4, 4) (2, 2) false 1 (fun _ _ => 0)).interior_shape.1 ∧
      ∃ t2, (mk_tiler (4, 4) (2, 2) false 1 (fun _ _ => 0)).insert tile_wrong (0, 0) =
          .ok t2 ∧
        t2.overall (0 * (4 / 2)) (0 * (4 / 2)) = tile_wrong.data 0 0) ∧
     ((mk_tiler (4, 4) (2, 2) false 1 (fun _ _ => 0)).insert tile_exact (2, 0) =
        .error .broadcastError) ∧
     (∃ t2, (mk_tiler (4, 4) (2, 2) false 1 (fun _ _ => 0)).insert
          (Tile.mk 1 1 (fun _ _ => 9)) (2, 0) = .ok t2 ∧
        ∀ y x, t2.overall y x = (fun _ _ => (0 : ℚ)) y x) ∧
     ((mk_tiler (4, 4) (2, 2) false 1 (fun _ _ => 0)).insert tile_exact
          ((0 : ℤ) - 2, 0) =
        (mk_tiler (4, 4) (2, 2) false 1 (fun _ _ => 0)).insert tile_exact (0, 0) ∧
      ∃ t2, (mk_tiler (4, 4) (2, 2) false 1 (fun _ _ => 0)).insert tile_exact
           ((0 : ℤ) - 2, 0) = .ok t2 ∧
        t2.overall (0 * (4 / 2)) (0 * (4 / 2)) = tile_exact.data 0 0)) :=
  ⟨by decide, by decide, by decide, by decide, by decide, by decide, by decide,
   insert_no_validation (4, 4) (2, 2) false 1 (fun _ _ => 0) (by decide) (by decide)
     (by decide) (by decide) (by decide) 0 0 (by decide) (by decide) (by decide)
     (by decide) (by decide) tile_exact tile_wrong (Tile.mk 1 1 (fun _ _ => 9))
     (by decide) (by decide) (by decide) (by decide) (by decide) (by decide)⟩

/-! ### C8: Tiler construction validation -/

/-- C8: with positive tile counts, `Tiler.__init__` fails with the
configuration error (`ValueError`) iff some axis of the base shape is
not exactly divisible by the corresponding tile count, and succeeds on
divisible configurations. -/
theorem tiler_init_validates (shape tiles_count : ℕ × ℕ) (outlier : Bool) (ss : ℕ)
    (empty : ℕ → ℕ → ℚ) (h1 : 0 < tiles_count.1) (h2 : 0 < tiles_count.2) :
    (tiler_init shape tiles_count outlier ss empty = .error .valueError ↔
      ¬ (tiles_count.1 ∣ shape.1 ∧ tiles_count.2 ∣ shape.2)) ∧
    ((tiles_count.1 ∣ shape.1 ∧ tiles_count.2 ∣ shape.2) →
      tiler_init shape tiles_count outlier ss empty =
        .ok (mk_tiler shape tiles_count outlier ss empty)) := by
  have hz : ¬ (tiles_count.1 = 0 ∨ tiles_count.2 = 0) := by omega
  unfold tiler_init check_tiling
  rw [if_neg hz]
  by_cases hm : shape.1 % tiles_count.1 ≠ 0 ∨ shape.2 % tiles_count.2 ≠ 0
  · rw [if_pos hm]
    have hnd : ¬ (tiles_count.1 ∣ shape.1 ∧ tiles_count.2 ∣ shape.2) := by
      intro hdvd
      rcases hm with hm1 | hm2
      · exact hm1 (Nat.dvd_iff_mod_eq_zero.mp hdvd.1)
      · exact hm2 (Nat.dvd_iff_mod_eq_zero.mp hdvd.2)
    exact ⟨⟨fun _ => hnd, fun _ => rfl⟩, fun hdvd => absurd hdvd hnd⟩
  · rw [if_neg hm]
    push_neg at hm
    have hd : tiles_count.1 ∣ shape.1 ∧ tiles_count.2 ∣ shape.2 :=
      ⟨Nat.dvd_iff_mod_eq_zero.mpr hm.1, Nat.dvd_iff_mod_eq_zero.mpr hm.2⟩
    refine ⟨⟨fun hcontra => absurd hcontra (by simp), fun hcontra => absurd hd hcontra⟩,
      fun _ => rfl⟩

/-- Witness for `tiler_init_validates` at shape (6, 8), counts (3, 4). -/
theorem tiler_init_validates_witness :
    0 < 3 ∧ 0 < 4 ∧
    ((tiler_init (6, 8) (3, 4) false 1 (fun _ _ => 0) = .error .valueError ↔
        ¬ (3 ∣ 6 ∧ 4 ∣ 8)) ∧
      ((3 ∣ 6 ∧ 4 ∣ 8) →
        tiler_init (6, 8) (3, 4) false 1 (fun _ _ => 0) =
          .ok (mk_tiler (6, 8) (3, 4) false 1 (fun _ _ => 0)))) :=
  ⟨by decide, by decide,
   tiler_init_validates (6, 8) (3, 4) false 1 (fun _ _ => 0) (by decide) (by decide)⟩

/-! ### C6: fps / exp_time setter feasibility -/

/-- C6: on a camera with both `fps` and `exp_time` set (hence `fps > 0`,
the only values the validated code can store), a setter fails with
`FPSError` carrying both values iff the resulting pair would violate
`exp_time <= 1 / fps`; the boundary `exp_time * fps = 1` is accepted;
on success exactly the assigned field changes (failure returns no new
state at all, so the prior state is untouched). -/
theorem setter_feasibility (c : Camera) (f e0 : ℚ)
    (hf : c.fps = some f) (he : c.exp_time = some e0) (hfpos : 0 < f)
    (e f2 : ℚ) (hf2 : 0 < f2) :
    (c.set_exp_time e = .error (.fpsError (some f) (some e)) ↔ ¬ e ≤ 1 / f) ∧
    (e ≤ 1 / f → c.set_exp_time e = .ok { c with exp_time := some e }) ∧
    (c.set_fps f2 = .error (.fpsError (some f2) (some e0)) ↔ ¬ e0 ≤ 1 / f2) ∧
    (e0 ≤ 1 / f2 → c.set_fps f2 = .ok { c with fps := some f2 }) ∧
    (e * f = 1 → c.set_exp_time e = .ok { c with exp_time := some e }) := by
  have hf0 : f ≠ 0 := ne_of_gt hfpos
  have hf20 : f2 ≠ 0 := ne_of_gt hf2
  have hexp : ∀ q : ℚ,
      c.set_exp_time q = if q ≤ 1 / f then .ok { c with exp_time := some q }
        else .error (.fpsError (some f) (some q)) := by
    intro q
    unfold Camera.set_exp_time fps_check_raise is_fps_feasible
    rw [hf]
    simp only [if_neg hf0]
    by_cases hle : q ≤ 1 / f
    · rw [if_pos hle, decide_eq_true hle]
    · rw [if_neg hle, decide_eq_false hle]
  have hfps :
      c.set_fps f2 = if e0 ≤ 1 / f2 then .ok { c with fps := some f2 }
        else .error (.fpsError (some f2) (some e0)) := by
    unfold Camera.set_fps fps_check_raise is_fps_feasible
    rw [he]
    simp only [if_neg hf20]
    by_cases hle : e0 ≤ 1 / f2
    · rw [if_pos hle, decide_eq_true hle]
    · rw [if_neg hle, decide_eq_false hle]
  refine ⟨?_, ?_, ?_, ?_, ?_⟩
  · rw [hexp e]
    by_cases hle : e ≤ 1 / f
    · simp [hle]
    · simp [hle]
  · intro hle
    rw [hexp e, if_pos hle]
  · rw [hfps]
    by_cases hle : e0 ≤ 1 / f2
    · simp [hle]
    · simp [hle]
  · intro hle
    rw [hfps, if_pos hle]
  · intro hmul
    have : e = 1 / f := by
      field_simp
      linarith [hmul]
    rw [hexp e, if_pos (le_of_eq this)]

/-- A concrete camera with both timing fields set, for witnesses. -/
def cam_timed : Camera :=
  { gain := 1, dark_current := 0, amplifier_sigma := 0, bpp := 12, shape := none,
    exp_time := some (1 / 2000), fps := some 1000, dark_image := none,
    dark_image_attr := false }

/-- Witness for `setter_feasibility`: fps 1000, exposure 1/2000,
assigning exposure 1/500 and fps 3000. -/
theorem setter_feasibility_witness :
    cam_timed.fps = some 1000 ∧ cam_timed.exp_time = some (1 / 2000) ∧
    (0 : ℚ) < 1000 ∧ (0 : ℚ) < 3000 ∧
    ((cam_timed.set_exp_time (1 / 500) =
        .error (.fpsError (some 1000) (some (1 / 500))) ↔
        ¬ (1 / 500 : ℚ) ≤ 1 / 1000) ∧
     ((1 / 500 : ℚ) ≤ 1 / 1000 →
        cam_timed.set_exp_time (1 / 500) =
          .ok { cam_timed with exp_time := some (1 / 500) }) ∧
     (cam_timed.set_fps 3000 =
        .error (.fpsError (some 3000) (some (1 / 2000))) ↔
        ¬ (1 / 2000 : ℚ) ≤ 1 / 3000) ∧
     ((1 / 2000 : ℚ) ≤ 1 / 3000 →
        cam_timed.set_fps 3000 = .ok { cam_timed with fps := some 3000 }) ∧
     ((1 / 500 : ℚ) * 1000 = 1 →
        cam_timed.set_exp_time (1 / 500) =
          .ok { cam_timed with exp_time := some (1 / 500) })) :=
  ⟨rfl, rfl, by norm_num, by norm_num,
   setter_feasibility cam_timed 1000 (1 / 2000) rfl rfl (by norm_num)
     (1 / 500) 3000 (by norm_num)⟩

/-! ### C7: derivation of the unset timing field -/

/-- A camera with neither timing field set. -/
def cam_unset : Camera :=
  { gain := 1, dark_current := 0, amplifier_sigma := 0, bpp := 12, shape := none,
    exp_time := none, fps := none, dark_image := none, dark_image_attr := false }

/-- C7 counterexample: on an existing camera the setters do not derive
the other field.  Assigning `fps = 10` with `exp_time` unset succeeds
(Python 2's `None <= number` is `True`) but leaves `exp_time` unset
instead of deriving `1/10`; assigning `exp_time` with `fps` unset does
not succeed at all — `1.0 / None` raises a `TypeError`. -/
theorem setter_no_derivation_counterexample :
    cam_unset.set_fps 10 = .ok { cam_unset with fps := some 10 } ∧
    ({ cam_unset with fps := some 10 } : Camera).exp_time = none ∧
    cam_unset.set_exp_time (1 / 100) = .error .typeError := by
  refine ⟨?_, rfl, rfl⟩
  unfold Camera.set_fps fps_check_raise is_fps_feasible
  norm_num [cam_unset]

/-- C7 amended: the derivation of the unset member of the
`(fps, exp_time)` pair happens only in `Camera.__init__`; the property
setters never derive it: `set_fps` with `exp_time` unset succeeds but
leaves `exp_time` unset, and `set_exp_time` with `fps` unset raises a
`TypeError`. -/
theorem init_derives_unset_field (gain dc sigma : ℚ) (bpp : ℕ)
    (f e : ℚ) (hf : 0 < f) (he : 0 < e) :
    ((camera_init gain dc sigma bpp none none (some f)).map Camera.fps =
        .ok (some f)) ∧
    ((camera_init gain dc sigma bpp none none (some f)).map Camera.exp_time =
        .ok (some (1 / f))) ∧
    ((camera_init gain dc sigma bpp none (some e) none).map Camera.fps =
        .ok (some (1 / e))) ∧
    ((camera_init gain dc sigma bpp none (some e) none).map Camera.exp_time =
        .ok (some e)) ∧
    (∀ c : Camera, c.exp_time = none →
        c.set_fps f = .ok { c with fps := some f }) ∧
    (∀ c : Camera, c.fps = none → c.set_exp_time e = .error .typeError) := by
  have hf0 : f ≠ 0 := ne_of_gt hf
  have he0 : e ≠ 0 := ne_of_gt he
  have h1e : (1 : ℚ) / e ≠ 0 := one_div_ne_zero he0
  have hinit1 : camera_init gain dc sigma bpp none none (some f) =
      .ok { (Camera.set_shape
              { gain := gain, dark_current := dc, amplifier_sigma := sigma,
                bpp := bpp, shape := none, exp_time := none, fps := none,
                dark_image := none, dark_image_attr := false } none) with
            fps := some f, exp_time := some (1 / f) } := by
    unfold camera_init fps_check_raise is_fps_feasible
    simp only [if_neg hf0]
    rw [decide_eq_true (le_refl ((1 : ℚ) / f))]
  have hinit2 : camera_init gain dc sigma bpp none (some e) none =
      .ok { (Camera.set_shape
              { gain := gain, dark_current := dc, amplifier_sigma := sigma,
                bpp := bpp, shape := none, exp_time := none, fps := none,
                dark_image := none, dark_image_attr := false } none) with
            fps := some (1 / e), exp_time := some e } := by
    unfold camera_init fps_check_raise is_fps_feasible
    simp only [if_neg he0, if_neg h1e]
    rw [decide_eq_true (show e ≤ 1 / (1 / e) by rw [one_div_one_div])]
  refine ⟨?_, ?_, ?_, ?_, ?_, ?_⟩
  · rw [hinit1]; rfl
  · rw [hinit1]; rfl
  · rw [hinit2]; rfl
  · rw [hinit2]; rfl
  · intro c hc
    unfold Camera.set_fps fps_check_raise is_fps_feasible
    rw [hc]
    simp only [if_neg hf0]
  · intro c hc
    unfold Camera.set_exp_time fps_check_raise is_fps_feasible
    rw [hc]

/-- Witness for `init_derives_unset_field` at `fps = 10`,
`exp_time = 1/4`. -/
theorem init_derives_unset_field_witness :
    (0 : ℚ) < 10 ∧ (0 : ℚ) < 1 / 4 ∧
    (((camera_init 1 0 0 12 none none (some 10)).map Camera.fps =
        .ok (some 10)) ∧
     ((camera_init 1 0 0 12 none none (some 10)).map Camera.exp_time =
        .ok (some (1 / 10))) ∧
     ((camera_init 1 0 0 12 none (some (1 / 4)) none).map Camera.fps =
        .ok (some (1 / (1 / 4)))) ∧
     ((camera_init 1 0 0 12 none (some (1 / 4)) none).map Camera.exp_time =
        .ok (some (1 / 4))) ∧
     (∀ c : Camera, c.exp_time = none →
        c.set_fps 10 = .ok { c with fps := some 10 }) ∧
     (∀ c : Camera, c.fps = none →
        c.set_exp_time (1 / 4) = .error .typeError)) :=
  ⟨by norm_num, by norm_num,
   init_derives_unset_field 1 0 0 12 10 (1 / 4) (by norm_num) (by norm_num)⟩

/-! ### C5: get_image output range -/

/-- A camera with gain 1, dark current 0, amplifier sigma 1 and 8 bits
per pixel. -/
def cam_noise : Camera :=
  { gain := 1, dark_current := 0, amplifier_sigma := 1, bpp := 8, shape := none,
    exp_time := none, fps := none, dark_image := none, dark_image_attr := false }

/-- `cam_noise` with shape (1, 1), so its dark image exists. -/
def cam_c5 : Camera := cam_noise.set_shape (some (1, 1))

/-- C5 counterexample: with `bits_per_pixel = 8`, a zero photon image
and a possible draw (Poisson draw 0 from mean 0, standard normal
deviate -1, admissible since `amplifier_sigma = 1 > 0`), the pixel
value `gain * (0 + 1 * (-1)) = -1` is not clipped (clipping only trims
values above `max_grey_value`) and the `astype(np.ushort)` cast wraps
it to 65535, far outside `[0, 2^8 - 1]`.  The cast is to the fixed
16-bit `np.ushort`, not to a width-`bits_per_pixel` integer. -/
theorem get_image_range_counterexample :
    cam_c5.bpp = 8 ∧ cam_c5.max_grey_value = 255 ∧
    cam_c5.dark_image = some (np_ones_times (1, 1) 0) ∧
    (∀ y x, poisson_support ((0 : ℚ) + (np_ones_times (1, 1) 0).data y x) 0) ∧
    (cam_c5.get_image (fun _ _ => 0) (fun _ _ => -1)).map (fun img => img 0 0) =
      .ok 65535 ∧
    ¬ 65535 ≤ cam_c5.max_grey_value := by
  refine ⟨rfl, rfl, rfl, ?_, ?_, ?_⟩
  · intro y x _
    rfl
  · have hc : ⌈(-1 : ℚ)⌉ = -1 := by
      rw [show ((-1 : ℚ)) = ((-1 : ℤ) : ℚ) by norm_num, Int.ceil_intCast]
    simp only [Camera.get_image, cam_c5, cam_noise, Camera.set_shape, Except.map]
    norm_num [cast_ushort, trunc_toward_zero, hc, Camera.max_grey_value]
    rfl
  · decide

/-- C5 amended: `get_image` casts to the fixed 16-bit `np.ushort`
regardless of `bits_per_pixel`, so every output value is below `2^16`;
and whenever every gain-scaled noisy pixel value is nonnegative and
`bits_per_pixel ≤ 16`, every output pixel lies within
`[0, 2^bits_per_pixel - 1]` (high values are clipped to
`max_grey_value` before the cast).  Negative pre-cast values are not
clipped and wrap modulo `2^16`, which is what the counterexample
exhibits. -/
theorem get_image_range_amended (c : Camera) (dimg : Img)
    (hd : c.dark_image = some dimg) (hbpp : c.bpp ≤ 16)
    (poisson : ℕ → ℕ → ℕ) (z : ℕ → ℕ → ℚ)
    (hres : ∀ y x, 0 ≤ c.gain * ((poisson y x : ℚ) + c.amplifier_sigma * z y x)) :
    ∃ img, c.get_image poisson z = .ok img ∧
      ∀ y x, img y x ≤ c.max_grey_value ∧ img y x < 65536 := by
  have hgi : c.get_image poisson z = .ok (fun y x =>
      cast_ushort (if c.gain * ((poisson y x : ℚ) + c.amplifier_sigma * z y x) >
          (c.max_grey_value : ℚ) then (c.max_grey_value : ℚ)
        else c.gain * ((poisson y x : ℚ) + c.amplifier_sigma * z y x))) := by
    unfold Camera.get_image
    rw [hd]
  refine ⟨_, hgi, ?_⟩
  intro y x
  show cast_ushort (if c.gain * ((poisson y x : ℚ) + c.amplifier_sigma * z y x) >
      (c.max_grey_value : ℚ) then (c.max_grey_value : ℚ)
    else c.gain * ((poisson y x : ℚ) + c.amplifier_sigma * z y x)) ≤
      c.max_grey_value ∧
    cast_ushort (if c.gain * ((poisson y x : ℚ) + c.amplifier_sigma * z y x) >
      (c.max_grey_value : ℚ) then (c.max_grey_value : ℚ)
    else c.gain * ((poisson y x : ℚ) + c.amplifier_sigma * z y x)) < 65536
  set clip := if c.gain * ((poisson y x : ℚ) + c.amplifier_sigma * z y x) >
      (c.max_grey_value : ℚ) then (c.max_grey_value : ℚ)
    else c.gain * ((poisson y x : ℚ) + c.amplifier_sigma * z y x) with hclip
  have h0 : 0 ≤ clip := by
    rw [hclip]
    split_ifs with h
    · exact Nat.cast_nonneg _
    · exact hres y x
  have h1 : clip ≤ (c.max_grey_value : ℚ) := by
    rw [hclip]
    split_ifs with h
    · exact le_refl _
    · exact le_of_not_lt h
  have hf0 : 0 ≤ ⌊clip⌋ := Int.floor_nonneg.mpr h0
  have hf1 : ⌊clip⌋ ≤ (c.max_grey_value : ℤ) := by
    have hle := Int.floor_le_floor h1
    rwa [Int.floor_natCast] at hle
  have hmax : (c.max_grey_value : ℤ) < 65536 := by
    have hlt : c.max_grey_value < 65536 := by
      unfold Camera.max_grey_value
      have hpow : 2 ^ c.bpp ≤ 2 ^ 16 := Nat.pow_le_pow_right (by omega) hbpp
      omega
    exact_mod_cast hlt
  unfold cast_ushort trunc_toward_zero
  rw [if_pos h0]
  have hemod : ⌊clip⌋ % 65536 = ⌊clip⌋ := Int.emod_eq_of_lt hf0 (by omega)
  rw [hemod]
  constructor
  · omega
  · omega

/-- Witness for `get_image_range_amended`: `cam_c5`, zero photons, zero
draws. -/
theorem get_image_range_amended_witness :
    cam_c5.dark_image = some (np_ones_times (1, 1) 0) ∧ cam_c5.bpp ≤ 16 ∧
    (∀ y x : ℕ, (0 : ℚ) ≤ cam_c5.gain * ((((fun _ _ => 0 : ℕ → ℕ → ℕ) y x : ℕ) : ℚ) +
        cam_c5.amplifier_sigma * (fun _ _ => (0 : ℚ)) y x)) ∧
    (∃ img, cam_c5.get_image (fun _ _ => 0) (fun _ _ => 0) = .ok img ∧
      ∀ y x, img y x ≤ cam_c5.max_grey_value ∧ img y x < 65536) :=
  ⟨rfl, by decide, fun y x => by norm_num [cam_c5, cam_noise, Camera.set_shape],
   get_image_range_amended cam_c5 (np_ones_times (1, 1) 0) rfl (by decide)
     (fun _ _ => 0) (fun _ _ => 0)
     (fun y x => by norm_num [cam_c5, cam_noise, Camera.set_shape])⟩

/-! ### C10: the dark image after shape changes -/

/-- A camera with `dark_current = 3` and no shape, for the C10 run. -/
def cam_dark : Camera :=
  { gain := 1, dark_current := 3, amplifier_sigma := 0, bpp := 12, shape := none,
    exp_time := none, fps := none, dark_image := none, dark_image_attr := false }

/-- C10 (code bug): after setting `shape = (2, 2)` and then assigning
`shape = None`, the dark image that `get_image` reads
(`self._dark_image`) is still the stale `(2, 2)` buffer filled with the
dark current, not `None`/absent — the setter's `None` branch assigns the
differently named attribute `self.dark_image` instead. -/
theorem dark_image_stale_after_shape_unset :
    ((cam_dark.set_shape (some (2, 2))).set_shape none).shape = none ∧
    ((cam_dark.set_shape (some (2, 2))).set_shape none).dark_image =
      some (np_ones_times (2, 2) 3) ∧
    ((cam_dark.set_shape (some (2, 2))).set_shape none).dark_image ≠ none ∧
    (np_ones_times (2, 2) 3).data 0 0 = 3 := by
  refine ⟨rfl, rfl, ?_, by norm_num [np_ones_times]⟩
  simp [Camera.set_shape, cam_dark]

end Syris
